import Mathlib

/-
Verification of the cash-closure reconciliation and daily-summary aggregation
of the billtrackly laundry back-office application, as implemented in the
`CashClosure` React component (the only cash-closure logic in the sources).

Modelling conventions:
* JavaScript numbers are IEEE-754 binary64 values.  They are embedded as
  exact rationals together with a rounding function `fl64 : ℚ → ℚ` that maps
  a rational to the nearest binary64 value (round half to even); every
  arithmetic operation of the source is followed by this rounding, and
  `parseFloat` rounds the exact decimal value of its argument.  `NaN` is
  modelled by `none` in `Option ℚ`; `fl64` does not model overflow to
  infinity or subnormal underflow, which the monetary amounts considered
  here never reach.
* JavaScript plain objects used as dictionaries are embedded as association
  lists in key-insertion order: assigning to an existing key replaces the
  value in place, assigning to a fresh key appends it at the end.
* Calendar dates ("YYYY-MM-DD" strings) are embedded as day numbers (ℤ) and
  timestamps as minutes since the epoch; equality of two date strings is
  equality of the corresponding day numbers.
* Rational arithmetic is written with kernel-evaluable operations `qadd`,
  `qsub`, `qmul` (plain `Rat.divInt` combinations, proved equal to the
  field operations of ℚ below) so that concrete runs of the embedded
  program can be checked by `decide`.
-/

/-! ### Kernel-evaluable rational arithmetic -/

/-- Addition on ℚ by the textbook fraction formula; equal to `· + ·`
(lemma `qadd_eq`) but evaluable by the kernel. -/
def qadd (a b : ℚ) : ℚ :=
  Rat.divInt (a.num * (b.den : ℤ) + b.num * (a.den : ℤ)) ((a.den : ℤ) * (b.den : ℤ))

/-- Subtraction on ℚ, evaluable by the kernel. -/
def qsub (a b : ℚ) : ℚ := qadd a (-b)

/-- Multiplication on ℚ by the textbook fraction formula, evaluable by the
kernel. -/
def qmul (a b : ℚ) : ℚ := Rat.divInt (a.num * b.num) ((a.den : ℤ) * (b.den : ℤ))

/-- The rational `2 ^ e` for an integer exponent, evaluable by the kernel. -/
def pow2 (e : ℤ) : ℚ :=
  if 0 ≤ e then mkRat (Int.ofNat (2 ^ e.toNat)) 1 else mkRat 1 (2 ^ (-e).toNat)

/-! ### Binary64 rounding model -/

/-- Number of binary digits of a natural number (0 for 0), via an explicit
fuel argument so that the kernel can evaluate it. -/
def bitlenAux : Nat → Nat → Nat
  | 0, _ => 0
  | fuel + 1, n => if n = 0 then 0 else bitlenAux fuel (n / 2) + 1

/-- Number of binary digits of a natural number: `bitlen n = ⌊log2 n⌋ + 1`
for `n ≥ 1`, and `bitlen 0 = 0`. -/
def bitlen (n : Nat) : Nat := bitlenAux n n

/-- Floor of the base-2 logarithm of a positive rational. -/
def floorLog2 (q : ℚ) : ℤ :=
  let g : ℤ := (bitlen q.num.natAbs : ℤ) - (bitlen q.den : ℤ)
  if pow2 g ≤ q then g else g - 1

/-- Round a rational to the nearest integer, ties to the even integer
(IEEE-754 default rounding). -/
def rne (x : ℚ) : ℤ :=
  let f := x.floor
  let r := qsub x (f : ℚ)
  if r < mkRat 1 2 then f
  else if mkRat 1 2 < r then f + 1
  else if f % 2 = 0 then f else f + 1

/-- Exact value of the IEEE-754 binary64 number nearest to a rational
(round half to even, 53-bit significand).  Overflow and subnormal
underflow are not modelled; all values appearing in this development are
finite and in the normal range. -/
def fl64 (q : ℚ) : ℚ :=
  if q = 0 then 0
  else
    let a := if q < 0 then -q else q
    let e : ℤ := floorLog2 a - 52
    let v : ℚ := qmul ((rne (qmul a (pow2 (-e))) : ℤ) : ℚ) (pow2 e)
    if 0 < q then v else -v

/-! ### JS `parseFloat` on decimal strings -/

/-- Numeric value of a decimal digit character, `none` for a non-digit. -/
def digitVal (c : Char) : Option Nat :=
  if '0' ≤ c ∧ c ≤ '9' then some (c.toNat - 48) else none

/-- Split a character list into its longest prefix of decimal digits and the
remainder. -/
def takeDigits : List Char → List Nat × List Char
  | [] => ([], [])
  | c :: cs =>
    match digitVal c with
    | some d => let p := takeDigits cs; (d :: p.1, p.2)
    | none => ([], c :: cs)

/-- Natural number denoted by a list of decimal digits (most significant
first). -/
def natOfDigits (ds : List Nat) : Nat := ds.foldl (fun a d => a * 10 + d) 0

/-- Model of JavaScript `parseFloat` on plain decimal literals
(`[+|-] digits [. digits]`, also `.digits` and `digits.`): the exact
rational value of the longest numeric prefix, or `none` (NaN) when no digit
can be read.  Leading whitespace, exponents, hexadecimal and `Infinity`
forms do not occur in the inputs considered here and are not modelled. -/
def parseDec (s : String) : Option ℚ :=
  let cs := s.data
  let neg : Bool := match cs with
    | '-' :: _ => true
    | _ => false
  let body : List Char := match cs with
    | '-' :: t => t
    | '+' :: t => t
    | _ => cs
  let ip := takeDigits body
  let fp : List Nat × List Char :=
    match ip.2 with
    | '.' :: t => takeDigits t
    | _ => ([], ip.2)
  if ip.1.isEmpty ∧ fp.1.isEmpty then none
  else
    let v : ℚ :=
      mkRat (Int.ofNat (natOfDigits ip.1 * 10 ^ fp.1.length + natOfDigits fp.1))
        (10 ^ fp.1.length)
    some (if neg then -v else v)

/-- JS `parseFloat` as the program sees it: the binary64 value nearest to
the decimal value of the string, or `none` (NaN).  The rounding function is
a parameter so that the aggregation can also be stated with exact decimal
arithmetic (`r = id`). -/
def parseFloatR (r : ℚ → ℚ) (s : String) : Option ℚ := (parseDec s).map r

/-! ### Data model -/

/-- Payment method reference data (`@shared/schema`): a code (e.g. "cash")
and a display name (e.g. "Efectivo"). -/
structure PaymentMethod where
  code : String
  name : String
deriving DecidableEq, Repr

/-- Employee reference data: id and display name. -/
structure Employee where
  id : String
  name : String
deriving DecidableEq, Repr

/-- An invoice as the cash-closure component consumes it.  `date` is the
timestamp in minutes since the epoch (`none` for a null/absent date, which
the date filter skips); monetary fields are the decimal strings stored by
the backend and are parsed with `parseFloat` at each use. -/
structure Invoice where
  date : Option ℤ := none
  status : String
  paid : Bool
  paymentMethod : String
  employeeId : String
  total : String
  subtotal : String := "0"
  tax : String := "0"
deriving DecidableEq, Repr

/-! ### JS object-as-dictionary operations -/

/-- Lookup (`obj[key]`): the value at a key, `none` when absent. -/
def getKey {α : Type} : List (String × α) → String → Option α
  | [], _ => none
  | (k, v) :: rest, key => if k = key then some v else getKey rest key

/-- Assignment (`obj[key] = v`): replace in place when the key exists,
append at the end when it is fresh (JS key-insertion order). -/
def setKey {α : Type} : List (String × α) → String → α → List (String × α)
  | [], key, v => [(key, v)]
  | (k, w) :: rest, key, v =>
    if k = key then (k, v) :: rest else (k, w) :: setKey rest key v

/-! ### NaN-aware number arithmetic -/

/-- JS addition of two possibly-NaN numbers, rounded by `r` (`fl64` for the
code, `id` for the exact-arithmetic reading): NaN is absorbing. -/
def oaddR (r : ℚ → ℚ) : Option ℚ → Option ℚ → Option ℚ
  | some x, b2 => match b2 with
    | some y => some (r (qadd x y))
    | none => none
  | none, _ => none

/-- JS subtraction of two possibly-NaN numbers, rounded by `r`. -/
def osubR (r : ℚ → ℚ) : Option ℚ → Option ℚ → Option ℚ
  | some x, some y => some (r (qsub x y))
  | _, _ => none

/-- JS `x || 0` applied to a number that may be NaN (`none`) or absent:
NaN and 0 both give 0, every other value is kept. -/
def orZero : Option ℚ → ℚ
  | some q => q
  | none => 0

/-! ### The daily-summary aggregation (`dailySummary` useMemo) -/

/-- One bucket of the payment summary: `{ quantity, total }`. -/
structure PayEntry where
  quantity : Nat
  total : Option ℚ
deriving DecidableEq, Repr

/-- One bucket of the per-employee statistics: `{ sales, total }`. -/
structure EmpEntry where
  sales : Nat
  total : Option ℚ
deriving DecidableEq, Repr

/-- `invoice.status === 'delivered' && invoice.paid`. -/
def isDelivered (i : Invoice) : Bool := i.status == "delivered" && i.paid

/-- `!invoice.paid && invoice.status !== 'cancelled'`. -/
def isPending (i : Invoice) : Bool := !i.paid && i.status != "cancelled"

/-- `paymentMethods.find(m => m.code === invoice.paymentMethod)?.name ||
'Pendiente'`: the display name of the invoice's payment method, falling
back to "Pendiente" when the code matches no method (or the matched name is
the empty string, which JS `||` also rejects). -/
def resolveMethodName (pms : List PaymentMethod) (code : String) : String :=
  match pms.find? (fun m => m.code == code) with
  | some m => if m.name = "" then "Pendiente" else m.name
  | none => "Pendiente"

/-- `employees.find(e => e.id === invoice.employeeId)?.name ||
'Desconocido'`. -/
def resolveEmployeeName (es : List Employee) (id : String) : String :=
  match es.find? (fun e => e.id == id) with
  | some e => if e.name = "" then "Desconocido" else e.name
  | none => "Desconocido"

/-- The guarded accumulation into the payment summary:
`if (paymentSummary[name]) { entry.quantity++; entry.total += amt }`. -/
def bumpPay (r : ℚ → ℚ) (m : List (String × PayEntry)) (key : String)
    (amt : Option ℚ) : List (String × PayEntry) :=
  match getKey m key with
  | some e => setKey m key ⟨e.quantity + 1, oaddR r e.total amt⟩
  | none => m

/-- The accumulation into the employee statistics, creating the bucket as
`{ sales: 0, total: 0 }` on first sight of the name. -/
def bumpEmp (r : ℚ → ℚ) (m : List (String × EmpEntry)) (key : String)
    (amt : Option ℚ) : List (String × EmpEntry) :=
  let e := (getKey m key).getD ⟨0, some 0⟩
  setKey m key ⟨e.sales + 1, oaddR r e.total amt⟩

/-- The derived `DailySummary` record. -/
structure DailySummary where
  totalInvoices : Nat
  deliveredInvoices : Nat
  pendingInvoices : Nat
  totalRevenue : Option ℚ
  totalSubtotal : Option ℚ
  totalTax : Option ℚ
  totalItems : Nat
  urgentOrders : Nat
  paymentSummary : List (String × PayEntry)
  employeeStats : List (String × EmpEntry)
deriving DecidableEq, Repr

/-- The payment summary seed: one zeroed bucket per payment-method name, in
list order, followed by the sentinel "Pendiente" bucket. -/
def seedPaymentSummary (paymentMethods : List PaymentMethod) :
    List (String × PayEntry) :=
  ((paymentMethods.map PaymentMethod.name) ++ ["Pendiente"]).foldl
    (fun m n => setKey m n ⟨0, some 0⟩) []

/-- The payment-summary accumulation loop over the delivered invoices. -/
def paymentSummaryR (r : ℚ → ℚ) (invoices : List Invoice)
    (paymentMethods : List PaymentMethod) : List (String × PayEntry) :=
  (invoices.filter isDelivered).foldl
    (fun m inv =>
      bumpPay r m (resolveMethodName paymentMethods inv.paymentMethod)
        (parseFloatR r inv.total))
    (seedPaymentSummary paymentMethods)

/-- The employee-statistics accumulation loop over the delivered invoices. -/
def employeeStatsR (r : ℚ → ℚ) (invoices : List Invoice)
    (employees : List Employee) : List (String × EmpEntry) :=
  (invoices.filter isDelivered).foldl
    (fun m inv =>
      bumpEmp r m (resolveEmployeeName employees inv.employeeId)
        (parseFloatR r inv.total))
    []

/-- The `dailySummary` useMemo of the `CashClosure` component, translated
clause by clause; `r` is the rounding applied after every arithmetic step
(`fl64` for the JS program, `id` for the exact-decimal reading of the
spec). -/
def dailySummaryR (r : ℚ → ℚ) (invoices : List Invoice)
    (paymentMethods : List PaymentMethod) (employees : List Employee) :
    DailySummary :=
  { totalInvoices := invoices.length
    deliveredInvoices := (invoices.filter isDelivered).length
    pendingInvoices := (invoices.filter isPending).length
    totalRevenue := (invoices.filter isDelivered).foldl
      (fun s inv => oaddR r s (parseFloatR r inv.total)) (some 0)
    totalSubtotal := (invoices.filter isDelivered).foldl
      (fun s inv => oaddR r s (parseFloatR r inv.subtotal)) (some 0)
    totalTax := (invoices.filter isDelivered).foldl
      (fun s inv => oaddR r s (parseFloatR r inv.tax)) (some 0)
    totalItems := invoices.length
    urgentOrders := 0
    paymentSummary := paymentSummaryR r invoices paymentMethods
    employeeStats := employeeStatsR r invoices employees }

/-- The aggregation exactly as the JS program computes it (binary64
arithmetic). -/
def dailySummary (invoices : List Invoice) (paymentMethods : List PaymentMethod)
    (employees : List Employee) : DailySummary :=
  dailySummaryR fl64 invoices paymentMethods employees

/-- The aggregation with the exact decimal arithmetic that the spec's
guarantee clause prescribes; used to compare the code against the spec's
words. -/
def dailySummaryExact (invoices : List Invoice)
    (paymentMethods : List PaymentMethod) (employees : List Employee) :
    DailySummary :=
  dailySummaryR id invoices paymentMethods employees

/-! ### systemCash, variance, and the create handler -/

/-- The `systemCash` useMemo: 0 when the payment-method list is empty or
has no method with code "cash"; otherwise `parseFloat(openingCash) +
(paymentSummary[cashMethod.name]?.total || 0)` in binary64 arithmetic. -/
def systemCash (paymentMethods : List PaymentMethod)
    (paySummary : List (String × PayEntry)) (openingCash : String) : Option ℚ :=
  if paymentMethods.isEmpty then some 0
  else
    match paymentMethods.find? (fun m => m.code == "cash") with
    | none => some 0
    | some cashMethod =>
      let cashPayments := getKey paySummary cashMethod.name
      let cashTotal : ℚ := match cashPayments with
        | some e => orZero e.total
        | none => 0
      oaddR fl64 (parseFloatR fl64 openingCash) (some cashTotal)

/-- The `variance` useMemo: `(parseFloat(countedCash) || 0) - systemCash`
in binary64 arithmetic. -/
def variance (countedCash : String) (sysCash : Option ℚ) : Option ℚ :=
  osubR fl64 (some (orZero (parseFloatR fl64 countedCash))) sysCash

/-- The payload `handleCreateCashClosure` hands to the create mutation. -/
structure CreatePayload where
  closingDate : String
  openingCash : ℚ
  countedCash : Option ℚ
  notes : Option String
deriving DecidableEq, Repr

/-- Outcome of `handleCreateCashClosure`: either the validation toast (no
mutation is invoked) or a call of the create mutation with its payload. -/
inductive CreateResult where
  | rejected : CreateResult
  | submitted : CreatePayload → CreateResult
deriving DecidableEq, Repr

/-- `handleCreateCashClosure`, translated clause by clause: reject when
`!countedCash || parseFloat(countedCash) < 0`, otherwise invoke the create
mutation with the parsed fields. -/
def handleCreateCashClosure (selectedDate openingCash countedCash notes : String) :
    CreateResult :=
  if countedCash == "" ||
      (match parseFloatR fl64 countedCash with
        | some q => decide (q < 0)
        | none => false) then
    CreateResult.rejected
  else
    CreateResult.submitted
      { closingDate := selectedDate
        openingCash := orZero (parseFloatR fl64 openingCash)
        countedCash := parseFloatR fl64 countedCash
        notes := if notes = "" then none else some notes }

/-! ### The invoice date filter of the invoices query -/

/-- UTC calendar day of a timestamp in minutes since the epoch: the day
number that `new Date(t).toISOString().split('T')[0]` denotes. -/
def utcDayOf (t : ℤ) : ℤ := t.fdiv 1440

/-- Local calendar day of a timestamp for a timezone `off` minutes ahead of
UTC (e.g. `off = -240` for UTC−4, the es-DO locale the app targets). -/
def localDayOf (off : ℤ) (t : ℤ) : ℤ := (t + off).fdiv 1440

/-- The invoices queryFn filter: keep invoices with a non-null date whose
`new Date(date).toISOString()` calendar day (UTC) equals the selected
date. -/
def filterInvoicesByDate (invoices : List Invoice) (selectedDay : ℤ) :
    List Invoice :=
  invoices.filter (fun i =>
    match i.date with
    | none => false
    | some t => utcDayOf t == selectedDay)

/-- The filter the spec describes, stated with local-date equality
(claim C2's reading); kept separate from the code's filter so the two can
be compared. -/
def filterInvoicesByLocalDate (off : ℤ) (invoices : List Invoice)
    (selectedDay : ℤ) : List Invoice :=
  invoices.filter (fun i =>
    match i.date with
    | none => false
    | some t => localDayOf off t == selectedDay)

/-! ### The persisted cash-closure store -/

/-- A persisted cash-closure record (closingDate as a day string). -/
structure CashClosureRecord where
  closingDate : String
  openingCash : ℚ
  countedCash : ℚ
  notes : Option String := none
deriving DecidableEq, Repr

/-- Modelled from the spec: the server-side create path behind
`POST /api/cash-closures` is not part of the reviewed sources (only the
client mutation that calls it is).  §4.2 and §9 of the spec state that the
reviewed create path performs no check for an existing record at the same
closingDate before inserting, so the store model inserts unconditionally. -/
def createCashClosure (store : List CashClosureRecord)
    (r : CashClosureRecord) : List CashClosureRecord :=
  store ++ [r]

/-! ### Sums over summary buckets (the spec's testable properties) -/

/-- Sum of the `quantity` fields over all payment-summary entries. -/
def sumQuantities : List (String × PayEntry) → Nat
  | [] => 0
  | (_, e) :: rest => e.quantity + sumQuantities rest

/-- NaN-absorbing exact sum of the `total` fields over all payment-summary
entries. -/
def sumTotals : List (String × PayEntry) → Option ℚ
  | [] => some 0
  | (_, e) :: rest => oaddR id e.total (sumTotals rest)

/-! ## Theorems

First the bridges between the kernel-evaluable operations and ℚ's field
structure, then the generic bookkeeping lemmas about the dictionary
operations, and finally one theorem per reviewed claim of the
specification. -/

theorem qadd_eq (a b : ℚ) : qadd a b = a + b := by
  conv_rhs => rw [← Rat.num_divInt_den a, ← Rat.num_divInt_den b]
  rw [Rat.divInt_add_divInt _ _ (by exact_mod_cast a.den_nz) (by exact_mod_cast b.den_nz)]
  rfl

theorem qsub_eq (a b : ℚ) : qsub a b = a - b := by
  rw [qsub, qadd_eq, sub_eq_add_neg]

theorem qmul_eq (a b : ℚ) : qmul a b = a * b := by
  conv_rhs => rw [← Rat.num_divInt_den a, ← Rat.num_divInt_den b]
  rw [Rat.divInt_mul_divInt']
  rfl

/-! ### The exact NaN-absorbing sum is commutative, associative and unital -/

theorem oadd_id_comm (a b : Option ℚ) : oaddR id a b = oaddR id b a := by
  cases a <;> cases b <;> simp [oaddR, qadd_eq, add_comm]

theorem oadd_id_assoc (a b c : Option ℚ) :
    oaddR id (oaddR id a b) c = oaddR id a (oaddR id b c) := by
  cases a <;> cases b <;> cases c <;> simp [oaddR, qadd_eq, add_assoc]

theorem oadd_id_left_comm (a b c : Option ℚ) :
    oaddR id a (oaddR id b c) = oaddR id b (oaddR id a c) := by
  rw [← oadd_id_assoc, oadd_id_comm a b, oadd_id_assoc]

theorem oadd_id_zero_left (a : Option ℚ) : oaddR id (some 0) a = a := by
  cases a <;> simp [oaddR, qadd_eq]

/-! ### Dictionary bookkeeping -/

theorem isSome_getKey_setKey {α : Type} (k k' : String) (v : α) :
    ∀ m : List (String × α),
      (getKey (setKey m k v) k').isSome = true ↔
        k' = k ∨ (getKey m k').isSome = true := by
  intro m
  induction m with
  | nil =>
    by_cases h : k = k'
    · subst h; simp [setKey, getKey]
    · simp only [setKey, getKey, h, if_false, Option.isSome_none]
      simp
      exact fun hh => h hh.symm
  | cons p rest ih =>
    obtain ⟨k0, w⟩ := p
    by_cases h0 : k0 = k
    · subst h0
      by_cases h1 : k0 = k'
      · subst h1; simp [setKey, getKey]
      · simp [setKey, getKey, h1]
        exact fun hh => absurd hh.symm h1
    · by_cases h1 : k0 = k'
      · subst h1
        simp [setKey, getKey, h0]
      · simp [setKey, getKey, h0, h1, ih]

theorem isSome_getKey_bumpPay (r : ℚ → ℚ) (m : List (String × PayEntry))
    (k key : String) (amt : Option ℚ) :
    (getKey (bumpPay r m key amt) k).isSome = true ↔
      (getKey m k).isSome = true := by
  unfold bumpPay
  cases h : getKey m key with
  | none => rfl
  | some e =>
    rw [isSome_getKey_setKey]
    constructor
    · rintro (rfl | h2)
      · rw [h]; rfl
      · exact h2
    · intro h2; exact Or.inr h2

theorem mem_setKey_val {α : Type} (z : α) :
    ∀ (m : List (String × α)) (k : String),
      (∀ p ∈ m, p.2 = z) → ∀ p ∈ setKey m k z, p.2 = z := by
  intro m
  induction m with
  | nil => intro k _ p hp; simp [setKey] at hp; rw [hp]
  | cons q rest ih =>
    intro k hm p hp
    obtain ⟨k0, w⟩ := q
    by_cases h0 : k0 = k
    · simp [setKey, h0] at hp
      rcases hp with hp | hp
      · rw [hp]
      · exact hm p (List.mem_cons_of_mem _ hp)
    · simp [setKey, h0] at hp
      rcases hp with hp | hp
      · exact hm p (by simp [hp])
      · exact ih k (fun q hq => hm q (List.mem_cons_of_mem _ hq)) p hp

theorem mem_foldl_setKey_val {α : Type} (z : α) :
    ∀ (names : List String) (m : List (String × α)),
      (∀ p ∈ m, p.2 = z) →
      ∀ p ∈ names.foldl (fun acc n => setKey acc n z) m, p.2 = z := by
  intro names
  induction names with
  | nil => intro m hm; simpa using hm
  | cons n ns ih =>
    intro m hm
    simp only [List.foldl_cons]
    exact ih (setKey m n z) (mem_setKey_val z m n hm)

theorem isSome_getKey_foldl_setKey {α : Type} (z : α) :
    ∀ (names : List String) (m : List (String × α)) (k : String),
      (getKey (names.foldl (fun acc n => setKey acc n z) m) k).isSome = true ↔
        k ∈ names ∨ (getKey m k).isSome = true := by
  intro names
  induction names with
  | nil => intro m k; simp
  | cons n ns ih =>
    intro m k
    simp only [List.foldl_cons]
    rw [ih (setKey m n z) k, isSome_getKey_setKey]
    simp [List.mem_cons]
    tauto

/-! ### Sums over payment-summary buckets under updates -/

theorem sumQuantities_eq_zero :
    ∀ m : List (String × PayEntry),
      (∀ p ∈ m, p.2 = (⟨0, some 0⟩ : PayEntry)) → sumQuantities m = 0 := by
  intro m
  induction m with
  | nil => intro _; rfl
  | cons p rest ih =>
    intro hm
    have hp := hm p (List.mem_cons_self p rest)
    obtain ⟨k, e⟩ := p
    simp only [sumQuantities]
    rw [show e = (⟨0, some 0⟩ : PayEntry) from hp,
      ih (fun q hq => hm q (List.mem_cons_of_mem _ hq))]

theorem sumTotals_eq_some_zero :
    ∀ m : List (String × PayEntry),
      (∀ p ∈ m, p.2 = (⟨0, some 0⟩ : PayEntry)) → sumTotals m = some 0 := by
  intro m
  induction m with
  | nil => intro _; rfl
  | cons p rest ih =>
    intro hm
    have hp := hm p (List.mem_cons_self p rest)
    obtain ⟨k, e⟩ := p
    simp only [sumTotals]
    rw [show e = (⟨0, some 0⟩ : PayEntry) from hp,
      ih (fun q hq => hm q (List.mem_cons_of_mem _ hq))]
    exact oadd_id_zero_left (some 0)

theorem sumQuantities_seed (pms : List PaymentMethod) :
    sumQuantities (seedPaymentSummary pms) = 0 :=
  sumQuantities_eq_zero _
    (mem_foldl_setKey_val _ _ _ (by intro p hp; simp at hp))

theorem sumTotals_seed (pms : List PaymentMethod) :
    sumTotals (seedPaymentSummary pms) = some 0 :=
  sumTotals_eq_some_zero _
    (mem_foldl_setKey_val _ _ _ (by intro p hp; simp at hp))

theorem resolveMethodName_mem (pms : List PaymentMethod) (c : String) :
    resolveMethodName pms c ∈ pms.map PaymentMethod.name ++ ["Pendiente"] := by
  unfold resolveMethodName
  cases h : pms.find? (fun m => m.code == c) with
  | none => simp
  | some m =>
    by_cases hn : m.name = ""
    · simp [hn]
    · simp only [hn, if_false]
      exact List.mem_append_left _
        (List.mem_map_of_mem _ (List.mem_of_find?_eq_some h))

theorem isSome_getKey_seed (pms : List PaymentMethod) (c : String) :
    (getKey (seedPaymentSummary pms) (resolveMethodName pms c)).isSome = true := by
  unfold seedPaymentSummary
  rw [isSome_getKey_foldl_setKey]
  exact Or.inl (resolveMethodName_mem pms c)

theorem sumQuantities_setKey :
    ∀ (m : List (String × PayEntry)) (k : String) (e v : PayEntry),
      getKey m k = some e →
      sumQuantities (setKey m k v) + e.quantity = sumQuantities m + v.quantity := by
  intro m
  induction m with
  | nil => intro k e v h; simp [getKey] at h
  | cons p rest ih =>
    intro k e v h
    obtain ⟨k0, w⟩ := p
    by_cases h0 : k0 = k
    · simp only [getKey, h0, if_pos] at h
      injection h with h
      subst h
      simp [setKey, h0, sumQuantities]
      omega
    · simp only [getKey, h0, if_neg, if_false] at h
      simp only [setKey, h0, if_neg, if_false, sumQuantities]
      have := ih k e v h
      omega

theorem sumQuantities_bumpPay (r : ℚ → ℚ) (m : List (String × PayEntry))
    (k : String) (amt : Option ℚ) (h : (getKey m k).isSome = true) :
    sumQuantities (bumpPay r m k amt) = sumQuantities m + 1 := by
  obtain ⟨e, he⟩ := Option.isSome_iff_exists.mp h
  simp only [bumpPay, he]
  have := sumQuantities_setKey m k e ⟨e.quantity + 1, oaddR r e.total amt⟩ he
  simp only at this
  omega

theorem sumTotals_setKey_bump :
    ∀ (m : List (String × PayEntry)) (k : String) (e : PayEntry) (n : Nat)
      (amt : Option ℚ), getKey m k = some e →
      sumTotals (setKey m k ⟨n, oaddR id e.total amt⟩) =
        oaddR id amt (sumTotals m) := by
  intro m
  induction m with
  | nil => intro k e n amt h; simp [getKey] at h
  | cons p rest ih =>
    intro k e n amt h
    obtain ⟨k0, w⟩ := p
    by_cases h0 : k0 = k
    · simp only [getKey, h0, if_pos] at h
      injection h with h
      subst h
      simp only [setKey, h0, if_pos, sumTotals]
      rw [oadd_id_comm w.total amt, oadd_id_assoc]
    · simp only [getKey, h0, if_neg, if_false] at h
      simp only [setKey, h0, if_neg, if_false, sumTotals]
      rw [ih k e n amt h, oadd_id_left_comm]

theorem sumTotals_bumpPay (m : List (String × PayEntry)) (k : String)
    (amt : Option ℚ) (h : (getKey m k).isSome = true) :
    sumTotals (bumpPay id m k amt) = oaddR id amt (sumTotals m) := by
  obtain ⟨e, he⟩ := Option.isSome_iff_exists.mp h
  simp only [bumpPay, he]
  exact sumTotals_setKey_bump m k e (e.quantity + 1) amt he

theorem sumQuantities_foldl_bumpPay (r : ℚ → ℚ) (κ : Invoice → String)
    (amt : Invoice → Option ℚ) :
    ∀ (l : List Invoice) (m : List (String × PayEntry)),
      (∀ inv : Invoice, (getKey m (κ inv)).isSome = true) →
      sumQuantities (l.foldl (fun acc inv => bumpPay r acc (κ inv) (amt inv)) m) =
        sumQuantities m + l.length := by
  intro l
  induction l with
  | nil => intro m _; simp
  | cons i l ih =>
    intro m hm
    have hm2 : ∀ inv : Invoice,
        (getKey (bumpPay r m (κ i) (amt i)) (κ inv)).isSome = true :=
      fun inv => (isSome_getKey_bumpPay r m (κ inv) (κ i) (amt i)).mpr (hm inv)
    simp only [List.foldl_cons]
    rw [ih _ hm2, sumQuantities_bumpPay r m (κ i) (amt i) (hm i), List.length_cons]
    omega

theorem sumTotals_foldl_bumpPay (κ : Invoice → String) (amt : Invoice → Option ℚ) :
    ∀ (l : List Invoice) (m : List (String × PayEntry)),
      (∀ inv : Invoice, (getKey m (κ inv)).isSome = true) →
      sumTotals (l.foldl (fun acc inv => bumpPay id acc (κ inv) (amt inv)) m) =
        l.foldl (fun s inv => oaddR id s (amt inv)) (sumTotals m) := by
  intro l
  induction l with
  | nil => intro m _; simp
  | cons i l ih =>
    intro m hm
    have hm2 : ∀ inv : Invoice,
        (getKey (bumpPay id m (κ i) (amt i)) (κ inv)).isSome = true :=
      fun inv => (isSome_getKey_bumpPay id m (κ inv) (κ i) (amt i)).mpr (hm inv)
    simp only [List.foldl_cons]
    rw [ih _ hm2, sumTotals_bumpPay m (κ i) (amt i) (hm i), oadd_id_comm]

theorem length_filter_add_length_filter_le {α : Type} (p q : α → Bool)
    (h : ∀ x, p x = true → q x = false) :
    ∀ l : List α, (l.filter p).length + (l.filter q).length ≤ l.length := by
  intro l
  induction l with
  | nil => simp
  | cons x l ih =>
    by_cases hp : p x = true
    · have hq := h x hp
      simp [List.filter_cons, hp, hq]
      omega
    · by_cases hq : q x = true
      · simp [List.filter_cons, hp, hq]
        omega
      · simp [List.filter_cons, hp, hq]
        omega

/-! ### Claim theorems -/

/-- Claim C1 (counterexample): with no cash payment method configured —
here the empty payment-method list, and also a list with only a "card"
method — and openingCash 100.00, the code computes systemCash = 0, not
openingCash = 100 as the claim states. -/
theorem systemCash_no_cash_method_ne_openingCash :
    systemCash [] [] ("100.00") = some 0 ∧
    systemCash [⟨"card", "Tarjeta"⟩] [] ("100.00") = some 0 ∧
    (0 : ℚ) ≠ 100 := by decide

/-- Claim C1 (amended): when a method with code "cash" exists, systemCash
is the binary64 sum of the parsed openingCash and the cash bucket's total
(with an absent or NaN total coerced to 0); when no cash method is
configured — including the empty payment-method list — systemCash is 0,
not openingCash.  On the spec's own example (openingCash 100.00, one
delivered cash invoice of 50.00) this gives 150.00. -/
theorem systemCash_characterization :
    (∀ (pms : List PaymentMethod) (ps : List (String × PayEntry)) (oc : String),
      pms.find? (fun m => m.code == "cash") = none →
      systemCash pms ps oc = some 0) ∧
    (∀ (pms : List PaymentMethod) (ps : List (String × PayEntry)) (oc : String)
      (cm : PaymentMethod),
      pms.find? (fun m => m.code == "cash") = some cm →
      systemCash pms ps oc =
        oaddR fl64 (parseFloatR fl64 oc)
          (some (match getKey ps cm.name with
            | some e => orZero e.total
            | none => 0))) ∧
    systemCash [⟨"cash", "Efectivo"⟩]
      ((dailySummary [⟨none, "delivered", true, "cash", "e1", "50.00", "0", "0"⟩]
          [⟨"cash", "Efectivo"⟩] []).paymentSummary) ("100.00") =
      some (mkRat 150 1) := by
  refine ⟨?_, ?_, by decide⟩
  · intro pms ps oc h
    by_cases hE : pms.isEmpty = true
    · simp [systemCash, hE]
    · simp [systemCash, hE, h]
  · intro pms ps oc cm h
    have hne : pms ≠ [] := by
      intro heq
      subst heq
      simp [List.find?] at h
    have hE : pms.isEmpty = false := by
      cases pms with
      | nil => exact absurd rfl hne
      | cons p rest => rfl
    simp [systemCash, hE, h]

/-- Claim C1 (witness): the characterization applied to a concrete list
with no cash method. -/
theorem systemCash_characterization_witness :
    systemCash [⟨"card", "Tarjeta"⟩] [] ("7") = some 0 :=
  systemCash_characterization.1 [⟨"card", "Tarjeta"⟩] [] ("7") (by decide)

/-- Claim C2 (counterexample): an invoice stamped 01:00 UTC on day 1
(minute 1500) belongs to local day 0 in a UTC−4 timezone (offset −240
minutes, the es-DO locale the app targets), but the code's filter, which
compares UTC calendar days, excludes it from the day-0 selection: the
filter is not local-date equality. -/
theorem filterInvoicesByDate_not_local :
    filterInvoicesByDate [⟨some 1500, "received", false, "cash", "e", "1", "0", "0"⟩] 0 = [] ∧
    filterInvoicesByLocalDate (-240)
      [⟨some 1500, "received", false, "cash", "e", "1", "0", "0"⟩] 0 =
      [⟨some 1500, "received", false, "cash", "e", "1", "0", "0"⟩] ∧
    filterInvoicesByDate [⟨some 1500, "received", false, "cash", "e", "1", "0", "0"⟩] 0 ≠
      filterInvoicesByLocalDate (-240)
        [⟨some 1500, "received", false, "cash", "e", "1", "0", "0"⟩] 0 := by decide

/-- Claim C2 (amended): the aggregator's input set contains exactly the
invoices with a non-null date whose UTC calendar day equals the target
date; this coincides with local-date filtering only for a zero UTC
offset. -/
theorem filterInvoicesByDate_utc_characterization :
    (∀ (invs : List Invoice) (d : ℤ),
      filterInvoicesByDate invs d = filterInvoicesByLocalDate 0 invs d) ∧
    (∀ (i : Invoice) (invs : List Invoice) (d : ℤ),
      i ∈ filterInvoicesByDate invs d ↔
        i ∈ invs ∧ ∃ t, i.date = some t ∧ utcDayOf t = d) := by
  constructor
  · intro invs d
    unfold filterInvoicesByDate filterInvoicesByLocalDate
    apply List.filter_congr
    intro i _
    cases hd : i.date with
    | none => rfl
    | some t => simp [utcDayOf, localDayOf]
  · intro i invs d
    unfold filterInvoicesByDate
    rw [List.mem_filter]
    refine and_congr_right fun _ => ?_
    cases hd : i.date with
    | none => simp
    | some t => simp [beq_iff_eq]

/-- Claim C2 (witness): the membership characterization applied to a
concrete invoice at minute 1500, which lies on UTC day 1. -/
theorem filterInvoicesByDate_utc_witness :
    (⟨some 1500, "received", false, "cash", "e", "1", "0", "0"⟩ : Invoice) ∈
      filterInvoicesByDate
        [⟨some 1500, "received", false, "cash", "e", "1", "0", "0"⟩] 1 :=
  (filterInvoicesByDate_utc_characterization.2 _ _ _).mpr
    ⟨by decide, 1500, rfl, by decide⟩

/-- Claim C3 (code evaluated at the failing input): two delivered cash
invoices of 0.10 and 0.20 produce totalRevenue 0.30000000000000004 (the
binary64 value 5404319552844596·2⁻⁵⁴) in the code's floating-point
arithmetic, while exact decimal arithmetic gives 0.30: the sums are binary
floating point and cent-level drift does occur. -/
theorem totalRevenue_binary64_drift :
    (dailySummary
        [⟨none, "delivered", true, "cash", "e1", "0.10", "0", "0"⟩,
         ⟨none, "delivered", true, "cash", "e1", "0.20", "0", "0"⟩]
        [⟨"cash", "Efectivo"⟩] []).totalRevenue =
      some (mkRat 5404319552844596 (2 ^ 54)) ∧
    (dailySummaryExact
        [⟨none, "delivered", true, "cash", "e1", "0.10", "0", "0"⟩,
         ⟨none, "delivered", true, "cash", "e1", "0.20", "0", "0"⟩]
        [⟨"cash", "Efectivo"⟩] []).totalRevenue = some (mkRat 3 10) ∧
    mkRat 5404319552844596 (2 ^ 54) ≠ mkRat 3 10 := by decide

/-- Claim C4 (code evaluated at the failing input): `parseFloat("abc")` is
NaN, yet the variance computation coerces it to 0 (`|| 0`) and returns
−systemCash instead of failing with a ParseError; a malformed
invoice.total likewise flows into totalRevenue as NaN rather than
aborting. -/
theorem malformed_countedCash_coerced_to_zero :
    parseFloatR fl64 ("abc") = none ∧
    variance ("abc") (some (mkRat 150 1)) = some (mkRat (-150) 1) ∧
    (dailySummary [⟨none, "delivered", true, "cash", "e1", "abc", "0", "0"⟩]
        [⟨"cash", "Efectivo"⟩] []).totalRevenue = none := by decide

/-- Claim C5 (counterexample): creating a closure for 2024-01-01 when the
store already holds a record for that date is not rejected — the store
ends up with two records for the same closingDate. -/
theorem createCashClosure_duplicate_not_rejected :
    ((createCashClosure [⟨"2024-01-01", 100, 150, none⟩]
        ⟨"2024-01-01", 0, 20, none⟩).filter
      (fun rec => rec.closingDate == "2024-01-01")).length = 2 := by decide

/-- Claim C5 (amended): the create path modelled from the spec performs no
duplicate check: every create appends exactly one record, rejecting
nothing and overwriting nothing (all previously stored records survive). -/
theorem createCashClosure_always_inserts (store : List CashClosureRecord)
    (rec : CashClosureRecord) :
    (createCashClosure store rec).length = store.length + 1 ∧
    rec ∈ createCashClosure store rec ∧
    ∀ x ∈ store, x ∈ createCashClosure store rec := by
  refine ⟨by simp [createCashClosure], by simp [createCashClosure], ?_⟩
  intro x hx
  simp only [createCashClosure, List.mem_append]
  exact Or.inl hx

/-- Claim C5 (witness): the no-overwrite clause applied to a concrete
one-record store. -/
theorem createCashClosure_always_inserts_witness :
    (⟨"2024-01-01", 100, 150, none⟩ : CashClosureRecord) ∈
      createCashClosure [⟨"2024-01-01", 100, 150, none⟩]
        ⟨"2024-01-01", 0, 20, none⟩ :=
  (createCashClosure_always_inserts _ _).2.2 _ (by simp)

/-- Claim C6 (counterexample): with methods A and B and delivered invoices
of 10¹⁶ (method A), 1 and 1 (method B), the code's binary64 accrual gives
bucket totals 10¹⁶ and 2, whose sum is 10¹⁶+2, while totalRevenue folds in
invoice order and collapses to 10¹⁶ (10¹⁶+1 rounds back to 10¹⁶ twice):
the two sums are not equal, so the claimed exact equality fails on the
code. -/
theorem paymentSummary_total_sum_float_mismatch :
    sumTotals ((dailySummary
        [⟨none, "delivered", true, "a", "e", "10000000000000000", "0", "0"⟩,
         ⟨none, "delivered", true, "b", "e", "1", "0", "0"⟩,
         ⟨none, "delivered", true, "b", "e", "1", "0", "0"⟩]
        [⟨"a", "A"⟩, ⟨"b", "B"⟩] []).paymentSummary) =
      some (mkRat 10000000000000002 1) ∧
    (dailySummary
        [⟨none, "delivered", true, "a", "e", "10000000000000000", "0", "0"⟩,
         ⟨none, "delivered", true, "b", "e", "1", "0", "0"⟩,
         ⟨none, "delivered", true, "b", "e", "1", "0", "0"⟩]
        [⟨"a", "A"⟩, ⟨"b", "B"⟩] []).totalRevenue =
      some (mkRat 10000000000000000 1) ∧
    mkRat 10000000000000002 1 ≠ mkRat 10000000000000000 1 := by decide

/-- Claim C6 (amended): with exact decimal arithmetic in place of the
code's binary64 additions, the sum of the payment-summary bucket totals
equals totalRevenue for every invoice set, payment-method list and
employee list (grouping delivered invoices by resolved method and summing
per bucket conserves the direct sum of their totals). -/
theorem paymentSummary_total_sum_exact (invs : List Invoice)
    (pms : List PaymentMethod) (es : List Employee) :
    sumTotals ((dailySummaryExact invs pms es).paymentSummary) =
      (dailySummaryExact invs pms es).totalRevenue := by
  show sumTotals (paymentSummaryR id invs pms) =
    (invs.filter isDelivered).foldl
      (fun s inv => oaddR id s (parseFloatR id inv.total)) (some 0)
  unfold paymentSummaryR
  rw [sumTotals_foldl_bumpPay _ _ _ _
      (fun inv => isSome_getKey_seed pms inv.paymentMethod),
    sumTotals_seed]

/-- Claim C7: the payment-summary quantities sum to exactly the number of
delivered invoices (status "delivered" and paid), for every invoice set,
payment-method list and employee list — no delivered invoice is dropped,
including those whose payment-method code matches no configured method
(they land in the seeded "Pendiente" bucket). -/
theorem paymentSummary_quantity_sum (invs : List Invoice)
    (pms : List PaymentMethod) (es : List Employee) :
    sumQuantities ((dailySummary invs pms es).paymentSummary) =
      (dailySummary invs pms es).deliveredInvoices ∧
    (dailySummary invs pms es).deliveredInvoices =
      (invs.filter isDelivered).length := by
  constructor
  · show sumQuantities (paymentSummaryR fl64 invs pms) =
      (invs.filter isDelivered).length
    unfold paymentSummaryR
    rw [sumQuantities_foldl_bumpPay fl64 _ _ _ _
        (fun inv => isSome_getKey_seed pms inv.paymentMethod),
      sumQuantities_seed, Nat.zero_add]
  · rfl

/-- Claim C8: the aggregation and the systemCash computation are
deterministic pure functions of the invoice set, payment methods,
employees and opening cash — equal inputs give equal (bit-identical)
outputs. -/
theorem dailySummary_deterministic (i1 i2 : List Invoice)
    (p1 p2 : List PaymentMethod) (e1 e2 : List Employee) (o1 o2 : String)
    (hi : i1 = i2) (hp : p1 = p2) (he : e1 = e2) (ho : o1 = o2) :
    dailySummary i1 p1 e1 = dailySummary i2 p2 e2 ∧
    systemCash p1 (dailySummary i1 p1 e1).paymentSummary o1 =
      systemCash p2 (dailySummary i2 p2 e2).paymentSummary o2 := by
  subst hi
  subst hp
  subst he
  subst ho
  exact ⟨rfl, rfl⟩

/-- Claim C8 (witness): determinism applied at concrete inputs. -/
theorem dailySummary_deterministic_witness :
    dailySummary [] [] [] = dailySummary [] [] [] ∧
    systemCash [] (dailySummary [] [] []).paymentSummary ("0") =
      systemCash [] (dailySummary [] [] []).paymentSummary ("0") :=
  dailySummary_deterministic [] [] [] [] [] [] ("0") ("0") rfl rfl rfl rfl

/-- Claim C9: the create handler rejects exactly when countedCash is the
empty string or parses to a negative number — the rejection happens before
the create mutation is invoked — and in every other case it proceeds to
submit the payload built from the parsed fields. -/
theorem handleCreateCashClosure_validation (d oc cc nt : String) :
    (handleCreateCashClosure d oc cc nt = CreateResult.rejected ↔
      cc = "" ∨ ∃ q, parseFloatR fl64 cc = some q ∧ q < 0) ∧
    (handleCreateCashClosure d oc cc nt ≠ CreateResult.rejected →
      handleCreateCashClosure d oc cc nt = CreateResult.submitted
        { closingDate := d
          openingCash := orZero (parseFloatR fl64 oc)
          countedCash := parseFloatR fl64 cc
          notes := if nt = "" then none else some nt }) := by
  have hmain : handleCreateCashClosure d oc cc nt = CreateResult.rejected ↔
      cc = "" ∨ ∃ q, parseFloatR fl64 cc = some q ∧ q < 0 := by
    unfold handleCreateCashClosure
    by_cases hc : cc = ""
    · subst hc
      simp
    · cases hp : parseFloatR fl64 cc with
      | none => simp [hc, hp]
      | some q =>
        by_cases hq : q < 0
        · simp [hc, hp, hq]
        · simp [hc, hp, hq]
  refine ⟨hmain, ?_⟩
  intro hne
  have hcond : (cc == "" ||
      (match parseFloatR fl64 cc with
        | some q => decide (q < 0)
        | none => false)) = false := by
    by_cases hc : cc = ""
    · exact absurd (hmain.mpr (Or.inl hc)) hne
    · cases hp : parseFloatR fl64 cc with
      | none => simp [hc, hp]
      | some q =>
        by_cases hq : q < 0
        · exact absurd (hmain.mpr (Or.inr ⟨q, hp, hq⟩)) hne
        · simp [hc, hp, hq]
  unfold handleCreateCashClosure
  simp [hcond]

/-- Claim C9 (witness): an empty countedCash is rejected. -/
theorem handleCreateCashClosure_validation_witness :
    handleCreateCashClosure ("2024-01-02") ("0") ("") ("") =
      CreateResult.rejected :=
  (handleCreateCashClosure_validation ("2024-01-02") ("0") ("") ("")).1.mpr
    (Or.inl rfl)

/-- Claim C10: the delivered predicate (status "delivered" and paid) and
the pending predicate (unpaid and not cancelled) are disjoint, the
delivered and pending counts sum to at most totalInvoices (= the number of
fetched invoices), and invoices that are paid but not delivered, or unpaid
and cancelled, fall in neither count. -/
theorem delivered_pending_partition (invs : List Invoice)
    (pms : List PaymentMethod) (es : List Employee) :
    (∀ i : Invoice, ¬(isDelivered i = true ∧ isPending i = true)) ∧
    (dailySummary invs pms es).totalInvoices = invs.length ∧
    (dailySummary invs pms es).deliveredInvoices +
        (dailySummary invs pms es).pendingInvoices ≤
      (dailySummary invs pms es).totalInvoices ∧
    (∀ i : Invoice, i.paid = true → i.status ≠ "delivered" →
      isDelivered i = false ∧ isPending i = false) ∧
    (∀ i : Invoice, i.paid = false → i.status = "cancelled" →
      isDelivered i = false ∧ isPending i = false) := by
  refine ⟨?_, rfl, ?_, ?_, ?_⟩
  · rintro i ⟨hd, hp⟩
    simp [isDelivered] at hd
    simp [isPending, hd.2] at hp
  · show (invs.filter isDelivered).length + (invs.filter isPending).length ≤
      invs.length
    apply length_filter_add_length_filter_le
    intro i hd
    simp [isDelivered] at hd
    simp [isPending, hd.2]
  · intro i hp hs
    constructor
    · simp [isDelivered, hs]
    · simp [isPending, hp]
  · intro i hp hs
    constructor
    · simp [isDelivered, hp]
    · simp [isPending, hs]

/-- Claim C10 (witness): a paid but not-yet-delivered invoice is counted
in neither the delivered nor the pending bucket. -/
theorem delivered_pending_partition_witness :
    isDelivered ⟨none, "ready", true, "cash", "e", "1", "0", "0"⟩ = false ∧
    isPending ⟨none, "ready", true, "cash", "e", "1", "0", "0"⟩ = false :=
  (delivered_pending_partition [] [] []).2.2.2.1
    ⟨none, "ready", true, "cash", "e", "1", "0", "0"⟩ rfl (by decide)
